import Mathlib

/-!
Shallow embedding of `Newshardbot.py`, a fetch–parse–filter–publish news
pipeline with a persistent dedup store, together with proofs of the spec's
testable properties.

External capabilities (HTTP fetching, HTML parsing, the SQLite engine, the
Telegram API, the system clock and the IANA time-zone database) are modelled
as explicit inputs (`World`) or as small faithful Lean functions, documented
at each definition.  Instants are modelled as seconds since the Unix epoch
(`Int`); sub-second precision is dropped, which no pipeline comparison
depends on.
-/

/-! ## Configuration constants (module-level constants of the source) -/

def MAX_POSTS_PER_RUN : Nat := 2

def WINDOW_HOURS : Int := 48

def PAGES_TO_SCAN : Nat := 6

def ARTICLES_PER_PAGE_HINT : Nat := 48

def NEWS_INDEX_URL : String := "https://worldoftanks.eu/ru/news/"


/-! ## Proleptic Gregorian calendar helpers

These model the arithmetic of the Python `datetime` library (external to the
repository): conversion between a civil date and days since the Unix epoch.
-/

def isLeap (y : Nat) : Bool :=
  (y % 4 == 0 && y % 100 != 0) || (y % 400 == 0)


def daysInMonth (y m : Nat) : Nat :=
  if m = 2 then (if isLeap y then 29 else 28)
  else if m = 4 ∨ m = 6 ∨ m = 9 ∨ m = 11 then 30
  else 31


def daysBeforeMonth (y m : Nat) : Nat :=
  (List.range (m - 1)).foldl (fun acc i => acc + daysInMonth y (i + 1)) 0


/-- Proleptic Gregorian ordinal of a civil date (day 1 = 0001-01-01),
as computed by `datetime.date.toordinal`. -/
def toOrdinal (y m d : Nat) : Nat :=
  365 * (y - 1) + (y - 1) / 4 - (y - 1) / 100 + (y - 1) / 400
    + daysBeforeMonth y m + d


/-- Ordinal of 1970-01-01, the Unix epoch. -/
def epochOrdinal : Nat := 719163


structure CivilDT where
  year : Nat
  month : Nat
  day : Nat
  hour : Nat
  minute : Nat
  second : Nat
deriving DecidableEq, Repr


/-- Seconds since the Unix epoch of a civil date-time read as UTC. -/
def epochOfCivil (c : CivilDT) : Int :=
  ((toOrdinal c.year c.month c.day : Int) - (epochOrdinal : Int)) * 86400
    + (c.hour * 3600 + c.minute * 60 + c.second : Nat)


/-- Civil date (year, month, day) of a day count since the Unix epoch
(days ≥ 0; the pipeline only meets post-epoch instants). -/
def civilFromDays (z : Nat) : Nat × Nat × Nat :=
  let z' := z + 719468
  let era := z' / 146097
  let doe := z' % 146097
  let yoe := (doe - doe / 1460 + doe / 36524 - doe / 146096) / 365
  let y := yoe + era * 400
  let doy := doe - (365 * yoe + yoe / 4 - yoe / 100)
  let mp := (5 * doy + 2) / 153
  let d := doy - (153 * mp + 2) / 5 + 1
  let m := if mp < 10 then mp + 3 else mp - 9
  (if m ≤ 2 then y + 1 else y, m, d)


/-! ## `parse_iso_datetime`

`datetime.fromisoformat` is standard-library code, external to the
repository; it is modelled here as a parser for the ISO-8601 profile the
news feeds emit: `YYYY-MM-DD[{T or space}HH:MM[:SS[.digits]][±HH:MM]]`,
with field-range validation.  Fractional seconds are accepted and dropped
(instants are second-granular in this model).
-/

def digitVal (c : Char) : Option Nat :=
  if c.isDigit then some (c.toNat - 48) else none


def readFixedNat : Nat → List Char → Nat → Option (Nat × List Char)
  | 0, l, acc => some (acc, l)
  | _ + 1, [], _ => none
  | k + 1, c :: rest, acc =>
    match digitVal c with
    | some v => readFixedNat k rest (acc * 10 + v)
    | none => none


def readDate (l : List Char) : Option ((Nat × Nat × Nat) × List Char) :=
  match readFixedNat 4 l 0 with
  | some (y, '-' :: r1) =>
    match readFixedNat 2 r1 0 with
    | some (m, '-' :: r2) =>
      match readFixedNat 2 r2 0 with
      | some (d, r3) =>
        if 1 ≤ m ∧ m ≤ 12 ∧ 1 ≤ d ∧ d ≤ daysInMonth y m then
          some ((y, m, d), r3)
        else none
      | none => none
    | _ => none
  | _ => none


def mkTimeChecked (hh mm ss : Nat) (r : List Char) :
    Option ((Nat × Nat × Nat) × List Char) :=
  if hh ≤ 23 ∧ mm ≤ 59 ∧ ss ≤ 59 then some ((hh, mm, ss), r) else none


def readDigits1 : List Char → Option (List Char)
  | [] => none
  | c :: rest => if c.isDigit then some (rest.dropWhile Char.isDigit) else none


def readTime (l : List Char) : Option ((Nat × Nat × Nat) × List Char) :=
  match readFixedNat 2 l 0 with
  | some (hh, ':' :: r1) =>
    match readFixedNat 2 r1 0 with
    | some (mm, r2) =>
      match r2 with
      | ':' :: r2' =>
        match readFixedNat 2 r2' 0 with
        | some (ss, r3) =>
          match r3 with
          | '.' :: r4 =>
            match readDigits1 r4 with
            | some r5 => mkTimeChecked hh mm ss r5
            | none => none
          | _ => mkTimeChecked hh mm ss r3
        | none => none
      | _ => mkTimeChecked hh mm 0 r2
    | none => none
  | _ => none


def readOffsetMag (l : List Char) (sign : Int) : Option (Int × List Char) :=
  match readFixedNat 2 l 0 with
  | some (oh, ':' :: r1) =>
    match readFixedNat 2 r1 0 with
    | some (om, r2) =>
      if oh ≤ 23 ∧ om ≤ 59 then some (sign * (oh * 60 + om), r2) else none
    | none => none
  | _ => none


def readOffset (l : List Char) : Option (Int × List Char) :=
  match l with
  | '+' :: r => readOffsetMag r 1
  | '-' :: r => readOffsetMag r (-1)
  | _ => none


/-- Model of `datetime.fromisoformat`: civil fields plus an optional UTC
offset in minutes; `none` when the string does not parse. -/
def fromisoformat (l : List Char) : Option (CivilDT × Option Int) :=
  match readDate l with
  | none => none
  | some ((y, m, d), rest) =>
    match rest with
    | [] => some (⟨y, m, d, 0, 0, 0⟩, none)
    | sep :: r1 =>
      if sep = 'T' ∨ sep = ' ' then
        match readTime r1 with
        | none => none
        | some ((hh, mm, ss), r2) =>
          match r2 with
          | [] => some (⟨y, m, d, hh, mm, ss⟩, none)
          | _ =>
            match readOffset r2 with
            | some (off, []) => some (⟨y, m, d, hh, mm, ss⟩, some off)
            | _ => none
      else none


/-- Python `str.strip()` on the whitespace alphabet relevant here. -/
def pyStrip (l : List Char) : List Char :=
  ((l.dropWhile Char.isWhitespace).reverse.dropWhile Char.isWhitespace).reverse


/-- `parse_iso_datetime` from the source: empty input is `None`; the string
is stripped; a trailing `"Z"` is rewritten to `"+00:00"`; a parse failure is
`None`; a zone-less result is assumed UTC; the result is the UTC instant. -/
def parse_iso_datetime (s : String) : Option Int :=
  if s = "" then none
  else
    let l := pyStrip s.data
    let l2 := if l.getLast? = some 'Z' then l.dropLast ++ "+00:00".data else l
    match fromisoformat l2 with
    | none => none
    | some (c, off) => some (epochOfCivil c - off.getD 0 * 60)


/-! ## Dedup store

`posted.sqlite3` holds a single table `posted(url TEXT PRIMARY KEY, title,
tag, posted_at)`.  The store is modelled as the list of rows in insertion
order; the SQLite engine is external and its `INSERT OR IGNORE` against the
primary key is modelled as insert-if-absent.  `posted_at`
(`datetime.now(timezone.utc).isoformat()`) is modelled as the clock reading
passed by the caller.
-/

structure PostedRecord where
  url : String
  title : String
  tag : String
  posted_at : Int
deriving DecidableEq, Repr


abbrev Store := List PostedRecord


def urlsOf (st : Store) : List String :=
  List.map PostedRecord.url st


/-- `already_posted`: `SELECT 1 FROM posted WHERE url=?` is non-empty. -/
def already_posted (st : Store) (url : String) : Bool :=
  List.any st (fun r => r.url == url)


/-- `mark_posted`: `INSERT OR IGNORE INTO posted VALUES(url, title, tag,
now)` — a no-op when a row with this primary key already exists. -/
def mark_posted (st : Store) (url title tag : String) (now : Int) : Store :=
  if already_posted st url then st
  else st ++ [⟨url, title, tag, now⟩]


/-! ## String helpers -/

/-- Python truthiness of a string: non-empty. -/
def truthyStr (s : String) : Bool := s ≠ ""


/-- Python truthiness of an optional string (`None` and `""` are falsy). -/
def truthyOptStr : Option String → Bool
  | some s => truthyStr s
  | none => false


/-- Python `a or b` for strings. -/
def pyOrStr (a b : String) : String := if a ≠ "" then a else b


/-- Python `a or b` where `a` is an optional string. -/
def pyOrOpt (a : Option String) (b : String) : String :=
  match a with
  | some s => if s ≠ "" then s else b
  | none => b


/-- Python `str.replace` specialised to a single-character pattern:
every occurrence of `c` is replaced by `rep`. -/
def replaceChar (c : Char) (rep : List Char) : List Char → List Char
  | [] => []
  | x :: xs => (if x = c then rep else [x]) ++ replaceChar c rep xs


/-- The character-list body of `html_escape`: sequential `str.replace` of
`&`, `<`, `>`, `"` (in that order) by their HTML entities. -/
def escapeListAll (l : List Char) : List Char :=
  replaceChar '"' "&quot;".data
    (replaceChar '>' "&gt;".data
      (replaceChar '<' "&lt;".data
        (replaceChar '&' "&amp;".data l)))


/-- `html_escape` from the source. -/
def html_escape (s : String) : String :=
  ⟨escapeListAll s.data⟩


/-- Per-character escaping table used to characterise `html_escape`. -/
def escapeChar (c : Char) : List Char :=
  if c = '&' then "&amp;".data
  else if c = '<' then "&lt;".data
  else if c = '>' then "&gt;".data
  else if c = '"' then "&quot;".data
  else [c]


/-- Python `needle in hay` for strings (substring containment). -/
def isSubstr (needle : List Char) : List Char → Bool
  | [] => needle.isEmpty
  | h :: t => needle.isPrefixOf (h :: t) || isSubstr needle t


/-- Python `str.lower`, restricted to the alphabets occurring in the
keyword table of `extra_hashtags_by_title` (ASCII and Cyrillic). -/
def pyLowerChar (c : Char) : Char :=
  if 'A' ≤ c ∧ c ≤ 'Z' then Char.ofNat (c.toNat + 32)
  else if 'А' ≤ c ∧ c ≤ 'Я' then Char.ofNat (c.toNat + 32)
  else if c = 'Ё' then 'ё'
  else c


def pyLower (s : String) : String := ⟨s.data.map pyLowerChar⟩


/-! ## URL handling

`urllib.parse` is standard-library code, external to the repository; the
functions below model the fragments of its behaviour exercised by the
pipeline (http(s) URLs; references that are either absolute, root-relative
or bare relative paths, which is all the collector produces).
-/

/-- Python `str.strip()` at the `String` level. -/
def pyTrimStr (s : String) : String := ⟨pyStrip s.data⟩


/-- The prefix of `l` before the first occurrence of `c` (all of `l` when
`c` does not occur). -/
def takeUntil (c : Char) (l : List Char) : List Char :=
  l.takeWhile (fun x => x ≠ c)


/-- `normalize_url`: `urlparse` followed by clearing `query` and `fragment`
and `geturl()` — everything from the first `#`, and within that from the
first `?`, is dropped. -/
def normalize_url (u : String) : String :=
  ⟨takeUntil '?' (takeUntil '#' u.data)⟩


/-- The characters after the first `"://"`, when present. -/
def afterSchemeSep : List Char → Option (List Char)
  | ':' :: '/' :: '/' :: rest => some rest
  | _ :: rest => afterSchemeSep rest
  | [] => none


/-- The characters before and after the first `"://"`, when present. -/
def aroundSchemeSep : List Char → Option (List Char × List Char)
  | ':' :: '/' :: '/' :: rest => some ([], rest)
  | x :: rest =>
    match aroundSchemeSep rest with
    | none => none
    | some (b, a) => some (x :: b, a)
  | [] => none


/-- The path component of `urlparse(u)` for the URL shapes the pipeline
meets: drop query and fragment; with a `scheme://host` part, the path is
what follows the host (from its first `/`); otherwise the whole remaining
string is the path. -/
def url_path (u : String) : String :=
  let base := (normalize_url u).data
  match afterSchemeSep base with
  | none => ⟨base⟩
  | some rest => ⟨rest.dropWhile (fun c => c ≠ '/')⟩


/-- Splitting a character list at every occurrence of `c`
(`str.split(c)` semantics: `n` separators produce `n + 1` pieces). -/
def splitOnChar (c : Char) : List Char → List (List Char)
  | [] => [[]]
  | x :: xs =>
    if x = c then [] :: splitOnChar c xs
    else
      match splitOnChar c xs with
      | [] => [[x]]
      | h :: t => (x :: h) :: t


/-- `ARTICLE_PATH_RE = ^/ru/news/([^/]+)/([^/]+)/?$` applied with
`re.match` (anchored): returns the two captured segments. -/
def articlePathMatch (path : String) : Option (String × String) :=
  match splitOnChar '/' path.data with
  | [e0, c1, c2, c3, c4] =>
    if e0 = [] ∧ c1 = "ru".data ∧ c2 = "news".data ∧ c3 ≠ [] ∧ c4 ≠ [] then
      some (⟨c3⟩, ⟨c4⟩)
    else none
  | [e0, c1, c2, c3, c4, e5] =>
    if e0 = [] ∧ e5 = [] ∧ c1 = "ru".data ∧ c2 = "news".data ∧ c3 ≠ [] ∧
        c4 ≠ [] then
      some (⟨c3⟩, ⟨c4⟩)
    else none
  | _ => none


/-- `tag_from_article_url`: the first captured segment of the article path
pattern, or `"news"` when the path does not match. -/
def tag_from_article_url (article_url : String) : String :=
  match articlePathMatch (url_path article_url) with
  | some (c, _) => c
  | none => "news"


/-- `scheme://host` part of a URL (for resolving root-relative refs). -/
def urlOrigin (base : String) : String :=
  match aroundSchemeSep base.data with
  | none => ""
  | some (scheme, rest) =>
    ⟨scheme ++ ':' :: '/' :: '/' :: rest.takeWhile (fun c => c ≠ '/')⟩


/-- `base` truncated after its last `/` (for resolving bare relative
refs against a directory-style base, e.g. `p2/` against `.../news/`). -/
def dirOf (base : String) : String :=
  ⟨(base.data.reverse.dropWhile (fun c => c ≠ '/')).reverse⟩


/-- Whether the reference carries its own `scheme://`. -/
def hasSchemeSep (l : List Char) : Bool :=
  (afterSchemeSep l).isSome


/-- `urljoin(base, ref)` restricted to the reference shapes the pipeline
produces: an absolute URL is returned as-is, a root-relative reference is
resolved against the origin, a bare relative path against the base's
directory. -/
def urljoin (base ref : String) : String :=
  if hasSchemeSep ref.data then ref
  else if ref.data.head? = some '/' then urlOrigin base ++ ref
  else dirOf base ++ ref


/-! ## Styling -/

/-- `tag_to_icon` from the source. -/
def tag_to_icon (tag : String) : String :=
  if tag = "updates" then "🛠️"
  else if tag = "specials" then "🎁"
  else if tag = "general-news" then "📢"
  else if tag = "merchandise" then "🛍️"
  else if tag = "clan" then "🛡️"
  else if tag = "tournaments" then "🏆"
  else if tag = "competitive-gaming" then "🏆"
  else if tag = "community" then "👥"
  else if tag = "live-streams" then "📺"
  else if tag = "guides" then "📘"
  else if tag = "ranked" then "🎖️"
  else if tag = "frontline" then "🚚"
  else if tag = "battle-pass" then "🎟️"
  else if tag = "common-test" then "🧪"
  else if tag = "test" then "🧪"
  else "📰"


/-- `tag_to_label` from the source. -/
def tag_to_label (tag : String) : String :=
  if tag = "updates" then "Обновления"
  else if tag = "specials" then "Акции"
  else if tag = "general-news" then "Новости"
  else if tag = "merchandise" then "Мерч"
  else if tag = "common-test" then "Тест"
  else if tag = "test" then "Тест"
  else tag


/-- The keyword table of `extra_hashtags_by_title`. -/
def hashtagKeywordTable : List (List String × String) :=
  [ (["патч", "обновлен", "микропатч", "update"], "#patch"),
    (["акц", "скид", "распрод", "sale", "%"], "#sale"),
    (["ивент", "событ", "event", "мисси", "задач"], "#event"),
    (["турнир", "tournament"], "#tournament"),
    (["прем", "premium"], "#premium"),
    (["тест", "common test", "общем тест"], "#test"),
    (["карта", "map"], "#maps"),
    (["танк", "ветк", "branch"], "#tanks") ]


/-- "unique keep order" suffix of `extra_hashtags_by_title`. -/
def dedupStrings : List String → List String → List String
  | _, [] => []
  | seen, x :: rest =>
    if x ∈ seen then dedupStrings seen rest
    else x :: dedupStrings (x :: seen) rest


/-- `extra_hashtags_by_title` from the source: the lower-cased title is
scanned against the keyword groups in order; a group whose key occurs as a
substring contributes its hashtag; duplicates are removed keeping first
occurrence. -/
def extra_hashtags_by_title (title : String) : List String :=
  let t := pyLower (pyOrStr title "")
  let tags := hashtagKeywordTable.foldr
    (fun kv acc =>
      if kv.1.any (fun k => isSubstr k.data t.data) then kv.2 :: acc else acc)
    []
  dedupStrings [] tags


/-! ## Date display (`format_dt`)

`ZoneInfo("Europe/Berlin")` draws on the IANA time-zone database, which is
external to the repository; the conversion is modelled by the current EU
rule for that zone: UTC+2 between the last Sunday of March 01:00 UTC and
the last Sunday of October 01:00 UTC, UTC+1 otherwise.
-/

def pad2 (n : Nat) : String :=
  if n < 10 then "0" ++ toString n else toString n


def pad4 (n : Nat) : String :=
  if n < 10 then "000" ++ toString n
  else if n < 100 then "00" ++ toString n
  else if n < 1000 then "0" ++ toString n
  else toString n


/-- Day of week of a day count since the epoch, with Sunday = 0
(1970-01-01 was a Thursday). -/
def weekdayOfDays (z : Nat) : Nat := (z + 4) % 7


/-- Day count since the epoch of the last Sunday of a month. -/
def lastSundayOfMonth (y m : Nat) : Nat :=
  let lastDay := toOrdinal y m (daysInMonth y m) - epochOrdinal
  lastDay - weekdayOfDays lastDay


/-- Berlin UTC offset in minutes at a UTC instant (EU DST rule). -/
def berlinOffsetMin (t : Int) : Int :=
  let z := t.toNat / 86400
  let y := (civilFromDays z).1
  let dstStart : Int := (lastSundayOfMonth y 3 : Int) * 86400 + 3600
  let dstEnd : Int := (lastSundayOfMonth y 10 : Int) * 86400 + 3600
  if dstStart ≤ t ∧ t < dstEnd then 120 else 60


/-- `strftime("%d.%m.%Y %H:%M")` on a local civil instant given as seconds
since the epoch. -/
def renderLocal (t : Int) : String :=
  let secs := t.toNat
  let z := secs / 86400
  let rem := secs % 86400
  let ymd := civilFromDays z
  pad2 ymd.2.2 ++ "." ++ pad2 ymd.2.1 ++ "." ++ pad4 ymd.1 ++ " "
    ++ pad2 (rem / 3600) ++ ":" ++ pad2 (rem % 3600 / 60)


/-- `format_dt` from the source: an absent instant renders as a dash,
otherwise the instant is shifted to the Europe/Berlin display zone and
rendered as `%d.%m.%Y %H:%M`. -/
def format_dt (dt : Option Int) : String :=
  match dt with
  | none => "—"
  | some t => renderLocal (t + berlinOffsetMin t * 60)


/-! ## Caption formatting -/

/-- The hashtag line of the caption: the category hashtag, then (when any
keyword matched) two spaces and the escaped supplementary hashtags. -/
def hashtagsLine (tag title : String) : String :=
  let extra_tags_str := String.intercalate " " (extra_hashtags_by_title (pyOrStr title ""))
  "🏷️ #" ++ html_escape tag
    ++ (if extra_tags_str ≠ "" then "  " ++ html_escape extra_tags_str else "")


/-- `format_caption_style2` from the source (an f-string assembled from the
escaped title, the icon, the rendered date, the label and the hashtag
line). -/
def format_caption_style2 (title tag : String) (published_dt_utc : Option Int) :
    String :=
  let safe_title := html_escape (pyOrStr title "Без названия")
  let safe_label := html_escape (tag_to_label tag)
  let icon := tag_to_icon tag
  let dt_str := html_escape (format_dt published_dt_utc)
  "📰 <b>WoT EU • НОВОСТИ</b>\n"
    ++ icon ++ " <b>" ++ safe_title ++ "</b>\n"
    ++ "📅 Дата: <b>" ++ dt_str ++ "</b>\n"
    ++ "📌 Раздел: <b>" ++ safe_label ++ "</b>\n"
    ++ hashtagsLine tag title


/-- The date field of the caption, a function of the publish time only. -/
def captionDateField (published_dt_utc : Option Int) : String :=
  html_escape (format_dt published_dt_utc)


/-- The category field of the caption, a function of the tag only. -/
def captionSectionField (tag : String) : String :=
  html_escape (tag_to_label tag)


/-! ## JSON-LD structured data (`extract_from_jsonld`)

`json.loads` and BeautifulSoup are external; a `<script
type="application/ld+json">` element is modelled by what the code observes
of it: empty text, unparsable text, or a parsed list of top-level entries
(a parsed dict is the singleton list of itself), each entry being a dict
carrying the optional `datePublished` / `dateCreated` members or a
non-dict value.
-/

inductive JVal where
  | str (s : String)
  | other (truthy : Bool)
deriving DecidableEq, Repr


def JVal.isTruthy : JVal → Bool
  | .str s => s ≠ ""
  | .other b => b


structure JObjLD where
  datePublished : Option JVal
  dateCreated : Option JVal
deriving DecidableEq, Repr


inductive JEntry where
  | nondict
  | obj (o : JObjLD)
deriving DecidableEq, Repr


inductive LDScript where
  | empty
  | malformed
  | parsed (objs : List JEntry)
deriving DecidableEq, Repr


/-- `obj.get("datePublished") or obj.get("dateCreated")`. -/
def jsonldDateField (o : JObjLD) : Option JVal :=
  match o.datePublished with
  | some v => if v.isTruthy then some v else o.dateCreated
  | none => o.dateCreated


/-- Inner loop of `extract_from_jsonld` over the objects of one script:
the first string-valued date field that parses wins. -/
def scanJsonldObjs : List JEntry → Option Int
  | [] => none
  | .nondict :: rest => scanJsonldObjs rest
  | .obj o :: rest =>
    match jsonldDateField o with
    | some (.str s) =>
      (match parse_iso_datetime s with
       | some dt => some dt
       | none => scanJsonldObjs rest)
    | _ => scanJsonldObjs rest


/-- `extract_from_jsonld` from the source: scripts in document order;
empty or unparsable scripts are skipped; the first parsed date wins. -/
def extract_from_jsonld : List LDScript → Option Int
  | [] => none
  | .empty :: rest => extract_from_jsonld rest
  | .malformed :: rest => extract_from_jsonld rest
  | .parsed objs :: rest =>
    match scanJsonldObjs objs with
    | some dt => some dt
    | none => extract_from_jsonld rest


/-! ## Article metadata (`fetch_article_meta`)

BeautifulSoup is external; an article document is modelled by what the
extractor observes of it: the `content` attribute of the first matching
`meta` element for each selector (`none` when the element or its attribute
is absent, possibly `some ""`), the `datetime` attribute of the first
`time` element, the JSON-LD scripts, and the stripped text of the `title`
element (`none` when absent).
-/

structure Doc where
  metaPublishedTime : Option String
  timeDatetime : Option String
  metaDatePublished : Option String
  ldScripts : List LDScript
  ogImage : Option String
  twitterImage : Option String
  itempropImage : Option String
  ogTitle : Option String
  docTitle : Option String
deriving DecidableEq, Repr


structure ArticleMeta where
  published_dt : Option Int
  image_url : Option String
  title : Option String
deriving DecidableEq, Repr


/-- Date source (1): `meta[property="article:published_time"]`. -/
def dateFromMetaProperty (d : Doc) : Option Int :=
  match d.metaPublishedTime with
  | some c => if c ≠ "" then parse_iso_datetime c else none
  | none => none


/-- Date source (2): the first `time` element's `datetime` attribute. -/
def dateFromTimeTag (d : Doc) : Option Int :=
  match d.timeDatetime with
  | some c => if c ≠ "" then parse_iso_datetime c else none
  | none => none


/-- Date source (3): `meta[itemprop="datePublished"]`. -/
def dateFromItemprop (d : Doc) : Option Int :=
  match d.metaDatePublished with
  | some c => if c ≠ "" then parse_iso_datetime c else none
  | none => none


/-- The image fallback chain: og:image, twitter:image, itemprop image;
each candidate is stripped; an empty (falsy) result falls through. -/
def imageChain (d : Doc) : Option String :=
  let i1 : Option String :=
    match d.ogImage with
    | some c => if c ≠ "" then some (pyTrimStr c) else none
    | none => none
  let i2 : Option String :=
    if truthyOptStr i1 then i1 else
      match d.twitterImage with
      | some c => if c ≠ "" then some (pyTrimStr c) else i1
      | none => i1
  if truthyOptStr i2 then i2 else
    match d.itempropImage with
    | some c => if c ≠ "" then some (pyTrimStr c) else i2
    | none => i2


/-- The title fallback chain: og:title (stripped), else the document's
`title` element text. -/
def titleChain (d : Doc) : Option String :=
  let t1 : Option String :=
    match d.ogTitle with
    | some c => if c ≠ "" then some (pyTrimStr c) else none
    | none => none
  if truthyOptStr t1 then t1 else
    match d.docTitle with
    | some tt => if tt ≠ "" then some tt else t1
    | none => t1


/-- `fetch_article_meta` from the source, after a successful fetch of the
article document: the four-step date chain (first hit wins), the image
chain, and the title chain. -/
def fetch_article_meta (d : Doc) : ArticleMeta :=
  let p1 := dateFromMetaProperty d
  let p2 := match p1 with
    | some v => some v
    | none => dateFromTimeTag d
  let p3 := match p2 with
    | some v => some v
    | none => dateFromItemprop d
  let p4 := match p3 with
    | some v => some v
    | none => extract_from_jsonld d.ldScripts
  { published_dt := p4, image_url := imageChain d, title := titleChain d }


/-! ## The world: external effects of one run

One run's interactions with the outside: the clock reading taken at the
start of `run_once`, the environment configuration, the listing pages
(`none` = the page request raised), the article documents (`none` = the
article request raised), and the Telegram API outcome of the n-th `POST`
(`false` = a non-success response, which `tg_api_post` turns into
`SystemExit`).
-/

structure Anchor where
  href : String
  text : String
deriving DecidableEq, Repr


structure World where
  now_utc : Int
  botToken : Option String
  channel : Option String
  fetchPage : String → Option (List Anchor)
  fetchArticle : String → Option Doc
  sendOk : Nat → Bool


def cutoffOf (w : World) : Int := w.now_utc - WINDOW_HOURS * 3600


/-! ## Index link collection -/

/-- Within-page "unique keep order" suffix of `parse_news_index_page`. -/
def dedupByUrl (seen : List String) : List (String × String) → List (String × String)
  | [] => []
  | (u, t) :: rest =>
    if u ∈ seen then dedupByUrl seen rest
    else (u, t) :: dedupByUrl (u :: seen) rest


/-- `parse_news_index_page` from the source: fetch the page (`none` when the
request or `raise_for_status` raises), keep the anchors whose stripped
`href` matches `ARTICLE_PATH_RE`, resolve and normalize each URL, take the
anchor text as rough title, and de-duplicate by URL keeping order. -/
def parse_news_index_page (w : World) (page_url : String) :
    Option (List (String × String)) :=
  match w.fetchPage page_url with
  | none => none
  | some anchors =>
    let items := anchors.filterMap (fun a =>
      let href := pyTrimStr a.href
      match articlePathMatch href with
      | none => none
      | some _ => some (normalize_url (urljoin page_url href), a.text))
    some (dedupByUrl [] items)


/-- Listing URL of page `n` (page 1 is the bare index). -/
def indexPageUrl (page : Nat) : String :=
  if page = 1 then NEWS_INDEX_URL
  else urljoin NEWS_INDEX_URL ("p" ++ toString page ++ "/")


/-- The page loop of `collect_new_links_all`: pages `page, page+1, …` while
`fuel` lasts, extending the accumulator, stopping early at the safety
ceiling; a page failure is an uncaught exception (`Except.error`). -/
def collectFrom (w : World) : Nat → Nat → List (String × String) →
    Except Unit (List (String × String))
  | _, 0, acc => .ok acc
  | page, fuel + 1, acc =>
    match parse_news_index_page w (indexPageUrl page) with
    | none => .error ()
    | some items =>
      let acc' := acc ++ items
      if ARTICLES_PER_PAGE_HINT * PAGES_TO_SCAN ≤ acc'.length then .ok acc'
      else collectFrom w (page + 1) fuel acc'


/-- `collect_new_links_all` from the source: pages `1 .. PAGES_TO_SCAN`. -/
def collect_new_links_all (w : World) : Except Unit (List (String × String)) :=
  collectFrom w 1 PAGES_TO_SCAN []


/-! ## The run orchestrator (`run_once`) -/

/-- One Telegram message as published: the article URL (also the button
URL), the rendered body, and the photo when sent via `sendPhoto`. -/
structure Published where
  url : String
  body : String
  photo : Option String
deriving DecidableEq, Repr


/-- State threaded through the candidate loop, together with the traces the
properties talk about: `fetched` the article URLs whose metadata fetch was
attempted, `formatted` the URLs a caption was rendered for, `sent` the
successfully published messages, `posted` the posted counter, `calls` the
number of Telegram API calls made. -/
structure RunState where
  store : Store
  fetched : List String
  formatted : List String
  sent : List Published
  posted : Nat
  calls : Nat
deriving DecidableEq, Repr


def initState (store0 : Store) : RunState :=
  { store := store0, fetched := [], formatted := [], sent := [],
    posted := 0, calls := 0 }


inductive RunError where
  | configError
  | pageFetchError
  | apiError
deriving DecidableEq, Repr


/-- Outcome of one candidate: continue the loop, or abort the run
(`SystemExit` raised by `tg_api_post`). -/
inductive StepRes where
  | cont (s : RunState)
  | fatal (s : RunState)
deriving DecidableEq, Repr


/-- The body of the per-candidate loop of `run_once`: fetch the article
(failure ⇒ record and continue), require a publish time (absence ⇒ record
and continue), require recency (stale ⇒ record and continue), otherwise
format and publish (photo or text form), and on API success record and
count; a non-success API response aborts. -/
def processCandidate (w : World) (cutoff : Int) (url title_guess : String)
    (s : RunState) : StepRes :=
  let tag := tag_from_article_url url
  let s0 := { s with fetched := s.fetched ++ [url] }
  match w.fetchArticle url with
  | none =>
    .cont { s0 with
      store := mark_posted s0.store url (pyOrStr title_guess url) tag w.now_utc }
  | some d =>
    let m := fetch_article_meta d
    match m.published_dt with
    | none =>
      .cont { s0 with
        store := mark_posted s0.store url
          (pyOrOpt m.title (pyOrStr title_guess url)) tag w.now_utc }
    | some pub_dt =>
      if pub_dt < cutoff then
        .cont { s0 with
          store := mark_posted s0.store url
            (pyOrOpt m.title (pyOrStr title_guess url)) tag w.now_utc }
      else
        let title_to_use := pyOrOpt m.title (pyOrStr title_guess "Новость")
        let caption := format_caption_style2 title_to_use tag (some pub_dt)
        let s1 := { s0 with formatted := s0.formatted ++ [url] }
        let msg : Published :=
          if truthyOptStr m.image_url then
            { url := url, body := caption, photo := m.image_url }
          else
            { url := url,
              body := caption ++ "\n\n<a href=\"" ++ html_escape url
                ++ "\">Открыть</a>",
              photo := none }
        if w.sendOk s1.calls then
          .cont { s1 with
            calls := s1.calls + 1,
            sent := s1.sent ++ [msg],
            store := mark_posted s1.store url title_to_use tag w.now_utc,
            posted := s1.posted + 1 }
        else
          .fatal { s1 with calls := s1.calls + 1 }


/-- The candidate loop of `run_once`: stop at the per-run cap, abort on a
fatal step. -/
def postLoop (w : World) (cutoff : Int) :
    List (String × String) → RunState → RunState × Option RunError
  | [], s => (s, none)
  | (url, g) :: rest, s =>
    if MAX_POSTS_PER_RUN ≤ s.posted then (s, none)
    else
      match processCandidate w cutoff url g s with
      | .cont s' => postLoop w cutoff rest s'
      | .fatal s' => (s', some .apiError)


inductive RunResult where
  | ok (s : RunState)
  | aborted (e : RunError) (s : RunState)
deriving DecidableEq, Repr


def RunResult.state : RunResult → RunState
  | .ok s => s
  | .aborted _ s => s


/-- `run_once` from the source: config precondition, clock reading, cutoff,
collection (an uncaught page failure aborts), dedup-store filtering,
reversal, and the capped candidate loop. -/
def run_once (w : World) (store0 : Store) : RunResult :=
  if ¬ (truthyOptStr w.botToken ∧ truthyOptStr w.channel) then
    .aborted .configError (initState store0)
  else
    let cutoff := cutoffOf w
    match collect_new_links_all w with
    | .error _ => .aborted .pageFetchError (initState store0)
    | .ok raw_candidates =>
      if raw_candidates.isEmpty then .ok (initState store0)
      else
        let candidates :=
          raw_candidates.filter (fun c => ! already_posted store0 c.1)
        if candidates.isEmpty then .ok (initState store0)
        else
          let candidates_ordered := candidates.reverse
          match postLoop w cutoff candidates_ordered (initState store0) with
          | (s, none) => .ok s
          | (s, some e) => .aborted e s


/-- URLs of the messages successfully published by a run. -/
def sentUrls (r : RunResult) : List String :=
  r.state.sent.map Published.url


/-! ## Step analysis of the candidate loop -/

/-- The run state carried by either outcome of a step. -/
def stepState : StepRes → RunState
  | .cont s => s
  | .fatal s => s


/-- The three deliberate-skip reasons of the loop body: unfetchable,
undated, or stale. -/
def skipReason (w : World) (cutoff : Int) (u : String) : Prop :=
  w.fetchArticle u = none ∨
  (∃ d, w.fetchArticle u = some d ∧ (fetch_article_meta d).published_dt = none) ∨
  (∃ d pd, w.fetchArticle u = some d ∧
    (fetch_article_meta d).published_dt = some pd ∧ pd < cutoff)


/-- The candidate is fetchable, dated, and within the window. -/
def publishable (w : World) (cutoff : Int) (u : String) : Prop :=
  ∃ d pd, w.fetchArticle u = some d ∧
    (fetch_article_meta d).published_dt = some pd ∧ cutoff ≤ pd


/-- Canonical state after a record-and-skip step. -/
def skipState (w : World) (u t : String) (s : RunState) : RunState :=
  { s with fetched := s.fetched ++ [u],
           store := mark_posted s.store u t (tag_from_article_url u) w.now_utc }


/-- Canonical state after a successful publish step. -/
def publishState (w : World) (u t : String) (msg : Published) (s : RunState) :
    RunState :=
  { s with fetched := s.fetched ++ [u],
           formatted := s.formatted ++ [u],
           sent := s.sent ++ [msg],
           posted := s.posted + 1,
           calls := s.calls + 1,
           store := mark_posted s.store u t (tag_from_article_url u) w.now_utc }


/-- Canonical state at an API-failure abort. -/
def abortState (u : String) (s : RunState) : RunState :=
  { s with fetched := s.fetched ++ [u],
           formatted := s.formatted ++ [u],
           calls := s.calls + 1 }


/-- Witness for C2: in a concrete world whose single listing page offers
one article whose URL is already recorded, the run fetches, formats and
publishes nothing. -/
def wC2 : World :=
  { now_utc := 900000,
    botToken := some "token", channel := some "chan",
    fetchPage := fun p =>
      if p = NEWS_INDEX_URL then some [⟨"/ru/news/cat/seen/", "Seen"⟩]
      else some [],
    fetchArticle := fun _ =>
      some { metaPublishedTime := some "1970-01-11T00:00:00Z",
             timeDatetime := none, metaDatePublished := none, ldScripts := [],
             ogImage := none, twitterImage := none, itempropImage := none,
             ogTitle := some "Seen", docTitle := none },
    sendOk := fun _ => true }


/-- Concrete world for the C1 witness: one listing page offering one
article published at the epoch, far older than the 48-hour window ending
at `now = 900000`. -/
def wC1 : World :=
  { now_utc := 900000,
    botToken := some "token", channel := some "chan",
    fetchPage := fun p =>
      if p = NEWS_INDEX_URL then some [⟨"/ru/news/cat/old/", "Old"⟩]
      else some [],
    fetchArticle := fun _ =>
      some { metaPublishedTime := some "1970-01-01T00:00:00Z",
             timeDatetime := none, metaDatePublished := none, ldScripts := [],
             ogImage := none, twitterImage := none, itempropImage := none,
             ogTitle := some "Old", docTitle := none },
    sendOk := fun _ => true }


def dC1 : Doc :=
  { metaPublishedTime := some "1970-01-01T00:00:00Z",
    timeDatetime := none, metaDatePublished := none, ldScripts := [],
    ogImage := none, twitterImage := none, itempropImage := none,
    ogTitle := some "Old", docTitle := none }


/-- Concrete world for the C9 witness: an in-window article whose publish
attempt gets a non-success API response. -/
def dC9 : Doc :=
  { metaPublishedTime := some "1970-01-11T00:00:00Z",
    timeDatetime := none, metaDatePublished := none, ldScripts := [],
    ogImage := none, twitterImage := none, itempropImage := none,
    ogTitle := some "Fresh", docTitle := none }


def wC9 : World :=
  { now_utc := 900000,
    botToken := some "token", channel := some "chan",
    fetchPage := fun p =>
      if p = NEWS_INDEX_URL then some [⟨"/ru/news/cat/fresh/", "F"⟩]
      else some [],
    fetchArticle := fun _ => some dC9,
    sendOk := fun _ => false }


/-- Document for the C8 witness: only the third-priority date source
(`meta[itemprop="datePublished"]`) is populated. -/
def d8only3 : Doc :=
  { metaPublishedTime := none, timeDatetime := none,
    metaDatePublished := some "1970-01-11T00:00:00Z", ldScripts := [],
    ogImage := none, twitterImage := none, itempropImage := none,
    ogTitle := none, docTitle := none }


/-- Concrete world for the C6 witness: one listing page offering three
in-window articles in discovery order A, B, C. -/
def dC6 : Doc :=
  { metaPublishedTime := some "1970-01-11T00:00:00Z",
    timeDatetime := none, metaDatePublished := none, ldScripts := [],
    ogImage := some "https://img.example/x.png", twitterImage := none,
    itempropImage := none, ogTitle := some "Real Title", docTitle := none }


def wC6 : World :=
  { now_utc := 900000,
    botToken := some "token", channel := some "chan",
    fetchPage := fun p =>
      if p = NEWS_INDEX_URL then
        some [⟨"/ru/news/cat/a/", "A"⟩, ⟨"/ru/news/cat/b/", "B"⟩,
              ⟨"/ru/news/cat/cc/", "C"⟩]
      else some [],
    fetchArticle := fun _ => some dC6,
    sendOk := fun _ => true }


/-! ## Claim C3 — de-duplication of collected links

The collector de-duplicates only within one listing page
(`parse_news_index_page`); `collect_new_links_all` concatenates the pages'
contributions without consulting URLs seen on earlier pages, so a URL
listed on two pages of the same pass appears twice in the output.
-/

/-- World for C3: the same article is listed on pages 1 and 2. -/
def wC3 : World :=
  { now_utc := 900000,
    botToken := some "token", channel := some "chan",
    fetchPage := fun p =>
      if p = NEWS_INDEX_URL then some [⟨"/ru/news/cat/a/", "A"⟩]
      else if p = "https://worldoftanks.eu/ru/news/p2/" then
        some [⟨"/ru/news/cat/a/", "A2"⟩]
      else some [],
    fetchArticle := fun _ => some dC6,
    sendOk := fun _ => true }


/-! ## Claim C4 — effect of a listing-page fetch failure

`parse_news_index_page` raises on a failed page request
(`r.raise_for_status()`), and neither `collect_new_links_all` nor
`run_once` catches the exception: the whole run aborts, discarding even
the candidates collected from earlier pages.
-/

/-- World for C4: page 1 succeeds and offers one fresh publishable
candidate; page 2's request fails. -/
def wC4 : World :=
  { now_utc := 900000,
    botToken := some "token", channel := some "chan",
    fetchPage := fun p =>
      if p = NEWS_INDEX_URL then some [⟨"/ru/news/cat/a/", "A"⟩]
      else none,
    fetchArticle := fun _ => some dC6,
    sendOk := fun _ => true }


/-! # Theorems -/

/-! ## Basic lemmas about the dedup store -/

lemma already_posted_iff (st : Store) (u : String) :
    already_posted st u = true ↔ u ∈ urlsOf st := by
  simp [already_posted, urlsOf, List.any_eq_true, List.mem_map, beq_iff_eq]


lemma mark_posted_of_posted {st : Store} {u : String} (t tag : String) (now : Int)
    (h : already_posted st u = true) : mark_posted st u t tag now = st := by
  simp [mark_posted, h]


lemma mark_posted_of_not_posted {st : Store} {u : String} (t tag : String) (now : Int)
    (h : already_posted st u = false) :
    mark_posted st u t tag now = st ++ [⟨u, t, tag, now⟩] := by
  simp [mark_posted, h]


lemma mem_mark_posted {st : Store} {u t tag : String} {now : Int} {r : PostedRecord}
    (h : r ∈ mark_posted st u t tag now) : r ∈ st ∨ r = ⟨u, t, tag, now⟩ := by
  unfold mark_posted at h
  split at h
  · exact Or.inl h
  · rcases List.mem_append.1 h with h' | h'
    · exact Or.inl h'
    · exact Or.inr (List.mem_singleton.1 h')


lemma already_posted_mark_posted_self (st : Store) (u t tag : String) (now : Int) :
    already_posted (mark_posted st u t tag now) u = true := by
  unfold mark_posted
  split
  · assumption
  · rw [already_posted_iff]
    unfold urlsOf
    simp


lemma urlsOf_mark_posted_nodup {st : Store} (u t tag : String) (now : Int)
    (h : (urlsOf st).Nodup) : (urlsOf (mark_posted st u t tag now)).Nodup := by
  unfold mark_posted
  split
  · exact h
  · next hnp =>
    have hu : u ∉ urlsOf st := by
      intro hmem
      rw [← already_posted_iff] at hmem
      simp [hmem] at hnp
    unfold urlsOf at *
    simp [List.nodup_append, h, hu]


/-! ## Characterisation of `html_escape` -/

lemma replaceChar_append (c : Char) (rep l1 l2 : List Char) :
    replaceChar c rep (l1 ++ l2) = replaceChar c rep l1 ++ replaceChar c rep l2 := by
  induction l1 with
  | nil => rfl
  | cons x xs ih => simp [replaceChar, ih]


lemma escapeListAll_append (l1 l2 : List Char) :
    escapeListAll (l1 ++ l2) = escapeListAll l1 ++ escapeListAll l2 := by
  simp [escapeListAll, replaceChar_append]


lemma escapeListAll_single (c : Char) : escapeListAll [c] = escapeChar c := by
  by_cases h1 : c = '&'
  · subst h1; rfl
  · by_cases h2 : c = '<'
    · subst h2; rfl
    · by_cases h3 : c = '>'
      · subst h3; rfl
      · by_cases h4 : c = '"'
        · subst h4; rfl
        · simp [escapeListAll, replaceChar, escapeChar, h1, h2, h3, h4]


lemma escapeListAll_eq_flatten (l : List Char) :
    escapeListAll l = (l.map escapeChar).flatten := by
  induction l with
  | nil => rfl
  | cons c t ih =>
    have : (c :: t) = [c] ++ t := rfl
    rw [this, escapeListAll_append, ih, escapeListAll_single]
    simp


lemma html_escape_eq_flatten (s : String) :
    html_escape s = String.mk ((s.data.map escapeChar).flatten) := by
  unfold html_escape
  rw [escapeListAll_eq_flatten]


/-! ## Lemmas about `pyStrip` -/

lemma head_false_of_dropWhile_self {p : Char → Bool} {a : Char} {t : List Char}
    (h : (a :: t).dropWhile p = a :: t) : p a = false := by
  by_contra hpa
  have hpa' : p a = true := by
    cases hp : p a
    · exact absurd hp hpa
    · rfl
  rw [List.dropWhile_cons, if_pos hpa'] at h
  have hlen : (t.dropWhile p).length ≤ t.length :=
    (List.dropWhile_suffix p).sublist.length_le
  rw [h] at hlen
  simp at hlen


lemma dropWhile_cons_append_of_head_false {p : Char → Bool} {a : Char}
    (t m : List Char) (ha : p a = false) :
    ((a :: t) ++ m).dropWhile p = (a :: t) ++ m := by
  simp [List.dropWhile_cons, ha]


/-- Appending a suffix whose characters start non-whitespace to a stripped
non-empty list leaves the concatenation stripped, provided the suffix ends
non-whitespace as well. -/
lemma pyStrip_append_of_stripped {l : List Char}
    (h1 : l.dropWhile Char.isWhitespace = l) (hne : l ≠ [])
    (m : List Char)
    (hmrev : (m.reverse ++ l.reverse).dropWhile Char.isWhitespace
      = m.reverse ++ l.reverse) :
    pyStrip (l ++ m) = l ++ m := by
  obtain ⟨a, t, rfl⟩ : ∃ a t, l = a :: t := by
    cases l with
    | nil => exact absurd rfl hne
    | cons a t => exact ⟨a, t, rfl⟩
  have ha : Char.isWhitespace a = false := head_false_of_dropWhile_self h1
  unfold pyStrip
  rw [dropWhile_cons_append_of_head_false t m ha]
  rw [List.reverse_append, hmrev]
  simp


lemma ne_nil_append_right {l m : List Char} (hm : m ≠ []) : l ++ m ≠ [] := by
  intro h
  have := congrArg List.length h
  simp at this
  exact hm this.2


lemma processCandidate_shape (w : World) (cutoff : Int) (u g : String)
    (s : RunState) :
    (∃ t, skipReason w cutoff u ∧
      processCandidate w cutoff u g s = .cont (skipState w u t s)) ∨
    (∃ t msg, publishable w cutoff u ∧ msg.url = u ∧ w.sendOk s.calls = true ∧
      processCandidate w cutoff u g s = .cont (publishState w u t msg s)) ∨
    (publishable w cutoff u ∧ w.sendOk s.calls = false ∧
      processCandidate w cutoff u g s = .fatal (abortState u s)) := by
  cases hf : w.fetchArticle u with
  | none =>
    left
    exact ⟨pyOrStr g u, Or.inl hf, by simp [processCandidate, hf, skipState]⟩
  | some d =>
    cases hp : (fetch_article_meta d).published_dt with
    | none =>
      left
      exact ⟨pyOrOpt (fetch_article_meta d).title (pyOrStr g u),
        Or.inr (Or.inl ⟨d, hf, hp⟩),
        by simp [processCandidate, hf, hp, skipState]⟩
    | some pd =>
      by_cases hc : pd < cutoff
      · left
        exact ⟨pyOrOpt (fetch_article_meta d).title (pyOrStr g u),
          Or.inr (Or.inr ⟨d, pd, hf, hp, hc⟩),
          by simp [processCandidate, hf, hp, hc, skipState]⟩
      · by_cases hs : w.sendOk s.calls = true
        · right; left
          refine ⟨pyOrOpt (fetch_article_meta d).title (pyOrStr g "Новость"),
            (if truthyOptStr (fetch_article_meta d).image_url then
              { url := u,
                body := format_caption_style2
                  (pyOrOpt (fetch_article_meta d).title (pyOrStr g "Новость"))
                  (tag_from_article_url u) (some pd),
                photo := (fetch_article_meta d).image_url }
            else
              { url := u,
                body := format_caption_style2
                  (pyOrOpt (fetch_article_meta d).title (pyOrStr g "Новость"))
                  (tag_from_article_url u) (some pd)
                  ++ "\n\n<a href=\"" ++ html_escape u ++ "\">Открыть</a>",
                photo := none }),
            ⟨d, pd, hf, hp, le_of_not_lt hc⟩, ?_, hs, ?_⟩
          · by_cases hi : truthyOptStr (fetch_article_meta d).image_url <;>
              simp [hi]
          · simp [processCandidate, hf, hp, hc, hs, publishState]
        · have hs' : w.sendOk s.calls = false := by simpa using hs
          right; right
          exact ⟨⟨d, pd, hf, hp, le_of_not_lt hc⟩, hs',
            by simp [processCandidate, hf, hp, hc, hs', abortState]⟩


/-! ### Field-wise corollaries of the step analysis -/

lemma stepState_fetched (w : World) (cutoff : Int) (u g : String) (s : RunState) :
    (stepState (processCandidate w cutoff u g s)).fetched = s.fetched ++ [u] := by
  rcases processCandidate_shape w cutoff u g s with
    ⟨t, _, he⟩ | ⟨t, msg, _, _, _, he⟩ | ⟨_, _, he⟩ <;> rw [he] <;> rfl


lemma stepState_formatted (w : World) (cutoff : Int) (u g : String) (s : RunState) :
    (stepState (processCandidate w cutoff u g s)).formatted = s.formatted ∨
    (stepState (processCandidate w cutoff u g s)).formatted = s.formatted ++ [u] := by
  rcases processCandidate_shape w cutoff u g s with
    ⟨t, _, he⟩ | ⟨t, msg, _, _, _, he⟩ | ⟨_, _, he⟩ <;> rw [he]
  · exact Or.inl rfl
  · exact Or.inr rfl
  · exact Or.inr rfl


lemma stepState_sent (w : World) (cutoff : Int) (u g : String) (s : RunState) :
    (stepState (processCandidate w cutoff u g s)).sent = s.sent ∨
    ∃ msg, msg.url = u ∧ publishable w cutoff u ∧
      (stepState (processCandidate w cutoff u g s)).sent = s.sent ++ [msg] := by
  rcases processCandidate_shape w cutoff u g s with
    ⟨t, _, he⟩ | ⟨t, msg, hpub, hurl, _, he⟩ | ⟨_, _, he⟩ <;> rw [he]
  · exact Or.inl rfl
  · exact Or.inr ⟨msg, hurl, hpub, rfl⟩
  · exact Or.inl rfl


lemma stepState_store (w : World) (cutoff : Int) (u g : String) (s : RunState) :
    (stepState (processCandidate w cutoff u g s)).store = s.store ∨
    ∃ t, (stepState (processCandidate w cutoff u g s)).store
      = mark_posted s.store u t (tag_from_article_url u) w.now_utc := by
  rcases processCandidate_shape w cutoff u g s with
    ⟨t, _, he⟩ | ⟨t, msg, _, _, _, he⟩ | ⟨_, _, he⟩ <;> rw [he]
  · exact Or.inr ⟨t, rfl⟩
  · exact Or.inr ⟨t, rfl⟩
  · exact Or.inl rfl


lemma stepState_posted_sent (w : World) (cutoff : Int) (u g : String) (s : RunState) :
    ((stepState (processCandidate w cutoff u g s)).posted = s.posted ∧
     (stepState (processCandidate w cutoff u g s)).sent = s.sent) ∨
    ((stepState (processCandidate w cutoff u g s)).posted = s.posted + 1 ∧
     ∃ msg, (stepState (processCandidate w cutoff u g s)).sent = s.sent ++ [msg]) := by
  rcases processCandidate_shape w cutoff u g s with
    ⟨t, _, he⟩ | ⟨t, msg, _, _, _, he⟩ | ⟨_, _, he⟩ <;> rw [he]
  · exact Or.inl ⟨rfl, rfl⟩
  · exact Or.inr ⟨rfl, msg, rfl⟩
  · exact Or.inl ⟨rfl, rfl⟩


lemma stepState_store_mem (w : World) (cutoff : Int) (u g : String) (s : RunState)
    {r : PostedRecord}
    (hr : r ∈ (stepState (processCandidate w cutoff u g s)).store) :
    r ∈ s.store ∨ (r.url = u ∧ (skipReason w cutoff u ∨
      u ∈ (stepState (processCandidate w cutoff u g s)).sent.map Published.url)) := by
  rcases processCandidate_shape w cutoff u g s with
    ⟨t, hsk, he⟩ | ⟨t, msg, hpub, hurl, _, he⟩ | ⟨_, _, he⟩ <;> rw [he] at hr ⊢
  · rcases mem_mark_posted hr with h | h
    · exact Or.inl h
    · subst h; exact Or.inr ⟨rfl, Or.inl hsk⟩
  · rcases mem_mark_posted hr with h | h
    · exact Or.inl h
    · subst h
      refine Or.inr ⟨rfl, Or.inr ?_⟩
      have hm : u ∈ (s.sent ++ [msg]).map Published.url := by simp [hurl]
      simpa [stepState, publishState] using hm
  · exact Or.inl hr


/-! ### Loop-level lemmas -/

lemma postLoop_inv (w : World) (cutoff : Int) (P : RunState → Prop)
    (C : String → Prop)
    (hstep : ∀ u g s, C u → P s →
      P (stepState (processCandidate w cutoff u g s))) :
    ∀ cs s, (∀ c ∈ cs, C c.1) → P s → P (postLoop w cutoff cs s).1 := by
  intro cs
  induction cs with
  | nil => intro s _ h; exact h
  | cons c rest ih =>
    intro s hC h
    obtain ⟨u, g⟩ := c
    by_cases hcap : MAX_POSTS_PER_RUN ≤ s.posted
    · simpa [postLoop, hcap] using h
    · have hCu : C u := hC (u, g) (List.mem_cons_self _ _)
      have hCr : ∀ c ∈ rest, C c.1 := fun c hc => hC c (List.mem_cons_of_mem _ hc)
      have hP' := hstep u g s hCu h
      cases hpc : processCandidate w cutoff u g s with
      | cont s' =>
        rw [hpc] at hP'
        simpa [postLoop, hcap, hpc] using ih s' hCr hP'
      | fatal s' =>
        rw [hpc] at hP'
        simpa [postLoop, hcap, hpc] using hP'


lemma postLoop_sent_le (w : World) (cutoff : Int) :
    ∀ cs (s : RunState), s.sent.length = s.posted →
      s.posted ≤ MAX_POSTS_PER_RUN →
      (postLoop w cutoff cs s).1.sent.length ≤ MAX_POSTS_PER_RUN := by
  intro cs
  induction cs with
  | nil => intro s h hle; simpa [postLoop, h] using hle
  | cons c rest ih =>
    intro s h hle
    obtain ⟨u, g⟩ := c
    by_cases hcap : MAX_POSTS_PER_RUN ≤ s.posted
    · simpa [postLoop, hcap, h] using hle
    · have hlt : s.posted < MAX_POSTS_PER_RUN := lt_of_not_le hcap
      cases hpc : processCandidate w cutoff u g s with
      | cont s' =>
        have hps := stepState_posted_sent w cutoff u g s
        rw [hpc] at hps
        rcases hps with ⟨h1, h2⟩ | ⟨h1, msg, h2⟩
        · have := ih s' (by simp [stepState] at h1 h2; rw [h2, h1, h])
            (by simp [stepState] at h1; omega)
          simpa [postLoop, hcap, hpc] using this
        · have := ih s'
            (by simp [stepState] at h1 h2; rw [h2, h1]; simp [h])
            (by simp [stepState] at h1; omega)
          simpa [postLoop, hcap, hpc] using this
      | fatal s' =>
        have hps := stepState_posted_sent w cutoff u g s
        rw [hpc] at hps
        rcases hps with ⟨h1, h2⟩ | ⟨h1, msg, h2⟩ <;> simp [stepState] at h1 h2
        · simp [postLoop, hcap, hpc, h2, h]; omega
        · simp [postLoop, hcap, hpc, h2, h]; omega


lemma run_once_state_cases (w : World) (store0 : Store) :
    (run_once w store0).state = initState store0 ∨
    ∃ cs, (∀ c ∈ cs, already_posted store0 c.1 = false) ∧
      (run_once w store0).state
        = (postLoop w (cutoffOf w) cs (initState store0)).1 := by
  unfold run_once
  split
  · left; rfl
  · split
    · left; rfl
    · next raw heq =>
      split
      · left; rfl
      · dsimp only
        split
        · left; rfl
        · right
          refine ⟨(raw.filter (fun c => !already_posted store0 c.1)).reverse,
            fun c hc => ?_, ?_⟩
          · rw [List.mem_reverse] at hc
            have := List.of_mem_filter hc
            simpa using this
          · cases hpl : postLoop w (cutoffOf w)
              ((raw.filter (fun c => !already_posted store0 c.1)).reverse)
              (initState store0) with
            | mk s e => cases e <;> simp [hpl, RunResult.state]


/-! ## Claim C7 — dedup-store invariant and idempotent insertion -/

/-- C7: the Dedup Store keeps at most one record per normalized URL
(uniqueness of `urlsOf` is preserved by insertion), and
`record(url, title, tag)` (`mark_posted`) is idempotent: inserting a URL
that is already present neither fails nor alters the existing rows, while
inserting an absent URL appends exactly one row. -/
theorem C7_store_idempotent (st : Store) (u t tag : String) (now : Int) :
    (already_posted st u = true → mark_posted st u t tag now = st) ∧
    (already_posted st u = false →
      mark_posted st u t tag now = st ++ [⟨u, t, tag, now⟩]) ∧
    ((urlsOf st).Nodup → (urlsOf (mark_posted st u t tag now)).Nodup) := by
  exact ⟨fun h => mark_posted_of_posted t tag now h,
    fun h => mark_posted_of_not_posted t tag now h,
    fun h => urlsOf_mark_posted_nodup u t tag now h⟩


/-- Witness for C7 at concrete stores: a duplicate insert of `"u"` is a
no-op leaving the existing row intact, and an insert into the empty store
appends the row. -/
theorem C7_store_idempotent_witness :
    mark_posted [⟨"u", "t", "g", 0⟩] "u" "x" "y" 5 = [⟨"u", "t", "g", 0⟩] ∧
    mark_posted [] "u" "x" "y" 5 = [⟨"u", "x", "y", 5⟩] :=
  ⟨(C7_store_idempotent [⟨"u", "t", "g", 0⟩] "u" "x" "y" 5).1 (by decide),
   (C7_store_idempotent [] "u" "x" "y" 5).2.1 (by decide)⟩


/-! ## Claim C5 — at-most-cap publishing -/

/-- C5: in every run the number of successful publishes is at most the
per-run cap `MAX_POSTS_PER_RUN`; the loop stops publishing once the posted
counter reaches the cap. -/
theorem C5_at_most_cap (w : World) (store0 : Store) :
    (sentUrls (run_once w store0)).length ≤ MAX_POSTS_PER_RUN := by
  rcases run_once_state_cases w store0 with hst | ⟨cs, _, hst⟩
  · simp [sentUrls, hst, initState]
  · have h := postLoop_sent_le w (cutoffOf w) cs (initState store0)
      (by rfl) (by simp [initState])
    simpa [sentUrls, hst] using h


/-! ## Claim C2 — idempotent admission -/

/-- C2: a URL already present in the Dedup Store at the start of a run is
dropped by the filter before the per-candidate loop, so the run never
fetches its metadata, never formats it, and never publishes it. -/
theorem C2_idempotent_admission (w : World) (store0 : Store) (url : String)
    (h : already_posted store0 url = true) :
    url ∉ (run_once w store0).state.fetched ∧
    url ∉ (run_once w store0).state.formatted ∧
    url ∉ sentUrls (run_once w store0) := by
  simp only [sentUrls]
  rcases run_once_state_cases w store0 with hst | ⟨cs, hcs, hst⟩
  · rw [hst]; simp [initState]
  · rw [hst]
    have hC : ∀ c ∈ cs, c.1 ≠ url := by
      intro c hc he
      have hf := hcs c hc
      rw [he] at hf
      rw [hf] at h
      exact Bool.false_ne_true h
    have := postLoop_inv w (cutoffOf w)
      (fun s => url ∉ s.fetched ∧ url ∉ s.formatted ∧
        url ∉ s.sent.map Published.url)
      (fun u => u ≠ url)
      (by
        intro u g s hu hP
        refine ⟨?_, ?_, ?_⟩
        · rw [stepState_fetched w (cutoffOf w) u g s]
          simp [hP.1, Ne.symm hu]
        · rcases stepState_formatted w (cutoffOf w) u g s with he | he <;>
            rw [he]
          · exact hP.2.1
          · simp [hP.2.1, Ne.symm hu]
        · rcases stepState_sent w (cutoffOf w) u g s with he | ⟨msg, hm, _, he⟩ <;>
            rw [he]
          · exact hP.2.2
          · simp [hP.2.2, hm, Ne.symm hu])
      cs (initState store0) hC (by simp [initState])
    exact this


theorem C2_idempotent_admission_witness :
    "https://worldoftanks.eu/ru/news/cat/seen/"
        ∉ (run_once wC2 [⟨"https://worldoftanks.eu/ru/news/cat/seen/", "Seen", "cat", 0⟩]).state.fetched ∧
    "https://worldoftanks.eu/ru/news/cat/seen/"
        ∉ (run_once wC2 [⟨"https://worldoftanks.eu/ru/news/cat/seen/", "Seen", "cat", 0⟩]).state.formatted ∧
    "https://worldoftanks.eu/ru/news/cat/seen/"
        ∉ sentUrls (run_once wC2 [⟨"https://worldoftanks.eu/ru/news/cat/seen/", "Seen", "cat", 0⟩]) :=
  C2_idempotent_admission wC2
    [⟨"https://worldoftanks.eu/ru/news/cat/seen/", "Seen", "cat", 0⟩]
    "https://worldoftanks.eu/ru/news/cat/seen/" (by decide)


/-! ## Claim C1 — window correctness -/

lemma publishable_elim {w : World} {cutoff : Int} {url : String} {d : Doc}
    {pd : Int} (hf : w.fetchArticle url = some d)
    (hp : (fetch_article_meta d).published_dt = some pd)
    (h : publishable w cutoff url) : cutoff ≤ pd := by
  obtain ⟨d', pd', hf', hp', hle⟩ := h
  rw [hf] at hf'
  injection hf' with hd
  subst hd
  rw [hp] at hp'
  injection hp' with hpd
  subst hpd
  exact hle


lemma skipReason_elim {w : World} {cutoff : Int} {url : String} {d : Doc}
    {pd : Int} (hf : w.fetchArticle url = some d)
    (hp : (fetch_article_meta d).published_dt = some pd)
    (h : skipReason w cutoff url) : pd < cutoff := by
  rcases h with h | ⟨d', hf', hp'⟩ | ⟨d', pd', hf', hp', hlt⟩
  · rw [hf] at h; exact absurd h (by simp)
  · rw [hf] at hf'; injection hf' with hd; subst hd
    rw [hp] at hp'; exact absurd hp' (by simp)
  · rw [hf] at hf'; injection hf' with hd; subst hd
    rw [hp] at hp'; injection hp' with hpd; subst hpd
    exact hlt


/-- C1: for a candidate whose metadata fetch succeeds and yields publish
time `pd`: (run-level) if `pd` is older than the cutoff the URL is never
published by the run; (step-level) processing such a stale candidate
records it in the Dedup Store and publishes nothing, while processing an
in-window candidate (with the API reporting success) publishes exactly it
and records it — i.e. publish occurs iff `now - published_at` is at most
the window. -/
theorem C1_window_correctness (w : World) (store0 : Store) (url : String)
    (d : Doc) (pd : Int)
    (hf : w.fetchArticle url = some d)
    (hp : (fetch_article_meta d).published_dt = some pd) :
    (pd < cutoffOf w → url ∉ sentUrls (run_once w store0)) ∧
    (∀ g s, pd < cutoffOf w → ∃ s',
      processCandidate w (cutoffOf w) url g s = .cont s' ∧
      s'.sent = s.sent ∧ already_posted s'.store url = true) ∧
    (∀ g s, cutoffOf w ≤ pd → w.sendOk s.calls = true → ∃ s' msg,
      processCandidate w (cutoffOf w) url g s = .cont s' ∧ msg.url = url ∧
      s'.sent = s.sent ++ [msg] ∧ already_posted s'.store url = true) := by
  refine ⟨?_, ?_, ?_⟩
  · intro hstale
    simp only [sentUrls]
    rcases run_once_state_cases w store0 with hst | ⟨cs, _, hst⟩
    · rw [hst]; simp [initState]
    · rw [hst]
      exact postLoop_inv w (cutoffOf w)
        (fun s => url ∉ s.sent.map Published.url) (fun _ => True)
        (by
          intro u g s _ hP
          rcases stepState_sent w (cutoffOf w) u g s with he | ⟨msg, hm, hpub, he⟩ <;>
            rw [he]
          · exact hP
          · by_cases hu : u = url
            · subst hu
              exact absurd (publishable_elim hf hp hpub) (not_le.2 hstale)
            · simp only [List.map_append, List.map_cons, List.map_nil,
                List.mem_append, List.mem_singleton, hm]
              exact fun hh => hh.elim hP (fun hh' => hu hh'.symm))
        cs (initState store0) (fun _ _ => trivial) (by simp [initState])
  · intro g s hstale
    rcases processCandidate_shape w (cutoffOf w) url g s with
      ⟨t, _, he⟩ | ⟨t, msg, hpub, _, _, _⟩ | ⟨hpub, _, _⟩
    · exact ⟨skipState w url t s, he, rfl,
        already_posted_mark_posted_self s.store url t (tag_from_article_url url) w.now_utc⟩
    · exact absurd (publishable_elim hf hp hpub) (not_le.2 hstale)
    · exact absurd (publishable_elim hf hp hpub) (not_le.2 hstale)
  · intro g s hfresh hok
    rcases processCandidate_shape w (cutoffOf w) url g s with
      ⟨t, hsk, _⟩ | ⟨t, msg, _, hurl, _, he⟩ | ⟨_, hs, _⟩
    · exact absurd (skipReason_elim hf hp hsk) (not_lt.2 hfresh)
    · exact ⟨publishState w url t msg s, msg, he, hurl, rfl,
        already_posted_mark_posted_self s.store url t (tag_from_article_url url) w.now_utc⟩
    · rw [hok] at hs; exact absurd hs (by simp)


/-- Witness for C1: the stale article of `wC1` is never published. -/
theorem C1_window_correctness_witness :
    "https://worldoftanks.eu/ru/news/cat/old/" ∉ sentUrls (run_once wC1 []) :=
  (C1_window_correctness wC1 [] "https://worldoftanks.eu/ru/news/cat/old/"
    dC1 0 (by decide) (by decide)).1 (by decide)


/-! ## Claim C9 — record lifecycle and API-failure abort -/

/-- C9: (a) every record in the store after a run was either there before
the run, or belongs to a URL the run successfully published, or to a URL
deliberately skipped (unfetchable, undated, or stale); (b) when the
messaging API reports non-success for an in-window candidate, the step is
fatal — the loop aborts immediately, ignoring the remaining candidates —
and neither the store nor the published list changes for that URL. -/
theorem C9_record_lifecycle (w : World) (store0 : Store) :
    (∀ r ∈ (run_once w store0).state.store,
        r ∈ store0 ∨ r.url ∈ sentUrls (run_once w store0) ∨
        skipReason w (cutoffOf w) r.url) ∧
    (∀ url g (s : RunState) d pd,
        w.fetchArticle url = some d →
        (fetch_article_meta d).published_dt = some pd →
        cutoffOf w ≤ pd → w.sendOk s.calls = false →
        processCandidate w (cutoffOf w) url g s = .fatal (abortState url s) ∧
        (abortState url s).store = s.store ∧
        (abortState url s).sent = s.sent ∧
        ∀ rest, ¬ MAX_POSTS_PER_RUN ≤ s.posted →
          postLoop w (cutoffOf w) ((url, g) :: rest) s
            = (abortState url s, some .apiError)) := by
  constructor
  · simp only [sentUrls]
    rcases run_once_state_cases w store0 with hst | ⟨cs, _, hst⟩
    · rw [hst]; intro r hr; exact Or.inl hr
    · rw [hst]
      exact postLoop_inv w (cutoffOf w)
        (fun s => ∀ r ∈ s.store, r ∈ store0 ∨
          r.url ∈ s.sent.map Published.url ∨ skipReason w (cutoffOf w) r.url)
        (fun _ => True)
        (by
          intro u g s _ hP r hr
          have hsent : ∀ x, x ∈ s.sent.map Published.url →
              x ∈ (stepState (processCandidate w (cutoffOf w) u g s)).sent.map
                Published.url := by
            intro x hx
            rcases stepState_sent w (cutoffOf w) u g s with he | ⟨msg, _, _, he⟩ <;>
              rw [he]
            · exact hx
            · simp only [List.map_append, List.mem_append]; exact Or.inl hx
          rcases stepState_store_mem w (cutoffOf w) u g s hr with h | ⟨hru, hres⟩
          · rcases hP r h with h' | h' | h'
            · exact Or.inl h'
            · exact Or.inr (Or.inl (hsent _ h'))
            · exact Or.inr (Or.inr h')
          · rcases hres with h' | h'
            · exact Or.inr (Or.inr (hru ▸ h'))
            · exact Or.inr (Or.inl (hru ▸ h')))
        cs (initState store0) (fun _ _ => trivial)
        (by intro r hr; exact Or.inl hr)
  · intro url g s d pd hf hp hfresh hsend
    have he : processCandidate w (cutoffOf w) url g s = .fatal (abortState url s) := by
      rcases processCandidate_shape w (cutoffOf w) url g s with
        ⟨t, hsk, _⟩ | ⟨t, msg, _, _, hok, _⟩ | ⟨_, _, he⟩
      · exact absurd (skipReason_elim hf hp hsk) (not_lt.2 hfresh)
      · rw [hsend] at hok; exact absurd hok (by simp)
      · exact he
    refine ⟨he, rfl, rfl, ?_⟩
    intro rest hcap
    simp [postLoop, hcap, he]


/-- Witness for C9: in `wC9` the publish step is fatal, the loop aborts at
once ignoring the rest, and the store is unchanged. -/
theorem C9_record_lifecycle_witness :
    processCandidate wC9 (cutoffOf wC9)
      "https://worldoftanks.eu/ru/news/cat/fresh/" "F" (initState [])
      = .fatal (abortState "https://worldoftanks.eu/ru/news/cat/fresh/"
          (initState [])) ∧
    postLoop wC9 (cutoffOf wC9)
      [("https://worldoftanks.eu/ru/news/cat/fresh/", "F")] (initState [])
      = (abortState "https://worldoftanks.eu/ru/news/cat/fresh/"
          (initState []), some .apiError) := by
  have h := (C9_record_lifecycle wC9 []).2
    "https://worldoftanks.eu/ru/news/cat/fresh/" "F" (initState []) dC9 864000
    (by decide) (by decide) (by decide) (by decide)
  exact ⟨h.1, h.2.2.2 [] (by decide)⟩


/-! ## Claim C10 — escaping in the formatted message -/

/-- C10: for any title containing `<`, `>`, `&` and `"`, the formatted
message renders the title through the per-character escaping table (so all
four characters appear entity-escaped), while the date field and the
category field of the message are functions of the publish time and the
tag alone, unaffected by the title. -/
theorem C10_escaping (t tag : String) (dt : Option Int)
    (ht : t ≠ "") (_h1 : '<' ∈ t.data) (_h2 : '>' ∈ t.data)
    (_h3 : '&' ∈ t.data) (_h4 : '"' ∈ t.data) :
    format_caption_style2 t tag dt =
      "📰 <b>WoT EU • НОВОСТИ</b>\n" ++ tag_to_icon tag ++ " <b>"
        ++ String.mk ((t.data.map escapeChar).flatten) ++ "</b>\n"
        ++ "📅 Дата: <b>" ++ captionDateField dt ++ "</b>\n"
        ++ "📌 Раздел: <b>" ++ captionSectionField tag ++ "</b>\n"
        ++ hashtagsLine tag t ∧
    escapeChar '<' = "&lt;".data ∧ escapeChar '>' = "&gt;".data ∧
    escapeChar '&' = "&amp;".data ∧ escapeChar '"' = "&quot;".data := by
  refine ⟨?_, by decide, by decide, by decide, by decide⟩
  simp only [format_caption_style2, captionDateField, captionSectionField,
    pyOrStr, html_escape_eq_flatten]
  simp [ht]


/-- Witness for C10 at a concrete title containing all four special
characters. -/
theorem C10_escaping_witness :
    format_caption_style2 "R<&>\"" "updates" none =
      "📰 <b>WoT EU • НОВОСТИ</b>\n" ++ tag_to_icon "updates" ++ " <b>"
        ++ String.mk ((("R<&>\"").data.map escapeChar).flatten) ++ "</b>\n"
        ++ "📅 Дата: <b>" ++ captionDateField none ++ "</b>\n"
        ++ "📌 Раздел: <b>" ++ captionSectionField "updates" ++ "</b>\n"
        ++ hashtagsLine "updates" "R<&>\"" ∧
    escapeChar '<' = "&lt;".data ∧ escapeChar '>' = "&gt;".data ∧
    escapeChar '&' = "&amp;".data ∧ escapeChar '"' = "&quot;".data :=
  C10_escaping "R<&>\"" "updates" none (by decide) (by decide) (by decide)
    (by decide) (by decide)


/-! ## Claim C8 — date extraction priority and UTC normalization -/

lemma pyStrip_append_of_last_nonws {l : List Char}
    (h1 : l.dropWhile Char.isWhitespace = l) (hne : l ≠ [])
    (minit : List Char) (y : Char) (hy : Char.isWhitespace y = false) :
    pyStrip (l ++ (minit ++ [y])) = l ++ (minit ++ [y]) := by
  apply pyStrip_append_of_stripped h1 hne
  rw [List.reverse_append]
  simp only [List.reverse_append, List.reverse_cons, List.reverse_nil,
    List.nil_append, List.singleton_append, List.cons_append,
    List.dropWhile_cons, hy]
  simp


/-- C8: the four date sources are tried in the fixed priority order with
the first successful parse winning (in particular, with the first two
sources failing the third wins; with the first three failing the JSON-LD
extractor decides; with all failing the result is absent while the
image/title extraction still proceeds — not an error); a trailing `"Z"`
behaves exactly like an explicit `"+00:00"` offset; and a zone-less
timestamp is interpreted as UTC. -/
theorem C8_date_chain :
    (∀ (d : Doc) (v : Int), dateFromMetaProperty d = some v →
        (fetch_article_meta d).published_dt = some v) ∧
    (∀ (d : Doc) (v : Int), dateFromMetaProperty d = none →
        dateFromTimeTag d = some v →
        (fetch_article_meta d).published_dt = some v) ∧
    (∀ (d : Doc) (v : Int), dateFromMetaProperty d = none →
        dateFromTimeTag d = none → dateFromItemprop d = some v →
        (fetch_article_meta d).published_dt = some v) ∧
    (∀ d : Doc, dateFromMetaProperty d = none → dateFromTimeTag d = none →
        dateFromItemprop d = none →
        (fetch_article_meta d).published_dt = extract_from_jsonld d.ldScripts ∧
        (fetch_article_meta d).image_url = imageChain d ∧
        (fetch_article_meta d).title = titleChain d) ∧
    (∀ s : String, s.data ≠ [] →
        s.data.dropWhile Char.isWhitespace = s.data →
        parse_iso_datetime (s ++ "Z") = parse_iso_datetime (s ++ "+00:00")) ∧
    (∀ (s : String) (c : CivilDT), s ≠ "" → pyStrip s.data = s.data →
        ¬ s.data.getLast? = some 'Z' → fromisoformat s.data = some (c, none) →
        parse_iso_datetime s = some (epochOfCivil c)) := by
  refine ⟨?_, ?_, ?_, ?_, ?_, ?_⟩
  · intro d v h; simp [fetch_article_meta, h]
  · intro d v h1 h2; simp [fetch_article_meta, h1, h2]
  · intro d v h1 h2 h3; simp [fetch_article_meta, h1, h2, h3]
  · intro d h1 h2 h3; refine ⟨?_, rfl, rfl⟩; simp [fetch_article_meta, h1, h2, h3]
  · intro s hne h1
    have hZne : (s ++ "Z") ≠ "" := by
      intro h
      have hd := congrArg String.data h
      rw [String.data_append] at hd
      exact ne_nil_append_right (by decide) hd
    have hPne : (s ++ "+00:00") ≠ "" := by
      intro h
      have hd := congrArg String.data h
      rw [String.data_append] at hd
      exact ne_nil_append_right (by decide) hd
    have hstrip1 : pyStrip ((s ++ "Z").data) = s.data ++ ['Z'] := by
      rw [String.data_append]
      have hz : ("Z".data : List Char) = [] ++ ['Z'] := rfl
      rw [hz]
      exact pyStrip_append_of_last_nonws h1 hne [] 'Z' (by decide)
    have hstrip2 : pyStrip ((s ++ "+00:00").data) = s.data ++ "+00:00".data := by
      rw [String.data_append]
      have hz : ("+00:00".data : List Char) = "+00:0".data ++ ['0'] := rfl
      rw [hz]
      exact pyStrip_append_of_last_nonws h1 hne "+00:0".data '0' (by decide)
    have hlast1 : (s.data ++ ['Z']).getLast? = some 'Z' := List.getLast?_concat _
    have hlast2 : (s.data ++ "+00:00".data).getLast? = some '0' := by
      have hz : (s.data ++ "+00:00".data) = (s.data ++ "+00:0".data) ++ ['0'] := by
        rw [List.append_assoc]; rfl
      rw [hz]
      exact List.getLast?_concat _
    have hdrop : (s.data ++ ['Z']).dropLast = s.data := List.dropLast_concat ..
    simp only [parse_iso_datetime, hZne, hPne, if_neg, ite_false,
      hstrip1, hstrip2, hlast1, hlast2, hdrop]
    simp
  · intro s c hne hstrip hlast hiso
    simp only [parse_iso_datetime]
    rw [if_neg hne]
    simp only [hstrip]
    rw [if_neg hlast, hiso]
    simp


/-- Witness for C8: the third source alone decides the date; `"Z"` and
`"+00:00"` agree; a zone-less timestamp is read as UTC. -/
theorem C8_date_chain_witness :
    (fetch_article_meta d8only3).published_dt = some 864000 ∧
    parse_iso_datetime ("1970-01-11T00:00:00" ++ "Z")
      = parse_iso_datetime ("1970-01-11T00:00:00" ++ "+00:00") ∧
    parse_iso_datetime "1970-01-11T00:00:00"
      = some (epochOfCivil ⟨1970, 1, 11, 0, 0, 0⟩) :=
  ⟨C8_date_chain.2.2.1 d8only3 864000 (by decide) (by decide) (by decide),
   C8_date_chain.2.2.2.2.1 "1970-01-11T00:00:00" (by decide) (by decide),
   C8_date_chain.2.2.2.2.2 "1970-01-11T00:00:00" ⟨1970, 1, 11, 0, 0, 0⟩
     (by decide) (by decide) (by decide) (by decide)⟩


/-! ## Claim C6 — oldest-eligible-first ordering -/

lemma postLoop_nil (w : World) (cutoff : Int) (s : RunState) :
    postLoop w cutoff [] s = (s, none) := rfl


lemma postLoop_cons (w : World) (cutoff : Int) (u g : String)
    (rest : List (String × String)) (s : RunState) :
    postLoop w cutoff ((u, g) :: rest) s =
      if MAX_POSTS_PER_RUN ≤ s.posted then (s, none)
      else
        match processCandidate w cutoff u g s with
        | .cont s' => postLoop w cutoff rest s'
        | .fatal s' => (s', some .apiError) := rfl


lemma processCandidate_publish_sent {w : World} {cutoff : Int} {u : String}
    (g : String) {s : RunState} {d : Doc} {pd : Int}
    (hf : w.fetchArticle u = some d)
    (hp : (fetch_article_meta d).published_dt = some pd)
    (hfresh : cutoff ≤ pd) (hok : w.sendOk s.calls = true) :
    ∃ s' msg, processCandidate w cutoff u g s = .cont s' ∧ msg.url = u ∧
      s'.sent = s.sent ++ [msg] ∧ s'.posted = s.posted + 1 ∧
      s'.calls = s.calls + 1 := by
  rcases processCandidate_shape w cutoff u g s with
    ⟨t, hsk, _⟩ | ⟨t, msg, _, hurl, _, he⟩ | ⟨_, hs, _⟩
  · exact absurd (skipReason_elim hf hp hsk) (not_lt.2 hfresh)
  · exact ⟨_, msg, he, hurl, rfl, rfl, rfl⟩
  · rw [hok] at hs; exact absurd hs (by simp)


/-- C6: with discovery order `[A, B, C]` (newest first), none previously
posted, all three fetchable, dated and in-window, and the API succeeding,
the run publishes `[C, B]` — the remaining candidate list is reversed and
the cap stops the loop after two publishes. -/
theorem C6_oldest_first (w : World) (store0 : Store)
    (ua ub uc ga gb gc : String) (da db dc : Doc) (pa pb pc : Int)
    (hbt : truthyOptStr w.botToken = true) (hch : truthyOptStr w.channel = true)
    (hcol : collect_new_links_all w = .ok [(ua, ga), (ub, gb), (uc, gc)])
    (hpa : already_posted store0 ua = false)
    (hpb : already_posted store0 ub = false)
    (hpc : already_posted store0 uc = false)
    (_hfa : w.fetchArticle ua = some da) (hfb : w.fetchArticle ub = some db)
    (hfc : w.fetchArticle uc = some dc)
    (_hma : (fetch_article_meta da).published_dt = some pa)
    (hmb : (fetch_article_meta db).published_dt = some pb)
    (hmc : (fetch_article_meta dc).published_dt = some pc)
    (_hwa : cutoffOf w ≤ pa) (hwb : cutoffOf w ≤ pb) (hwc : cutoffOf w ≤ pc)
    (hs0 : w.sendOk 0 = true) (hs1 : w.sendOk 1 = true) :
    sentUrls (run_once w store0) = [uc, ub] := by
  obtain ⟨s1, m1, he1, hu1, hsent1, hpost1, hcall1⟩ :=
    processCandidate_publish_sent (s := initState store0) gc hfc hmc hwc
      (by simpa [initState] using hs0)
  obtain ⟨s2, m2, he2, hu2, hsent2, hpost2, hcall2⟩ :=
    processCandidate_publish_sent (s := s1) gb hfb hmb hwb
      (by rw [hcall1]; simpa [initState] using hs1)
  have c0 : ¬ MAX_POSTS_PER_RUN ≤ (initState store0).posted := by
    simp [initState, MAX_POSTS_PER_RUN]
  have c1 : ¬ MAX_POSTS_PER_RUN ≤ s1.posted := by
    rw [hpost1]; simp [initState, MAX_POSTS_PER_RUN]
  have c2 : MAX_POSTS_PER_RUN ≤ s2.posted := by
    rw [hpost2, hpost1]; simp [initState, MAX_POSTS_PER_RUN]
  have hL : postLoop w (cutoffOf w) [(uc, gc), (ub, gb), (ua, ga)]
      (initState store0) = (s2, none) := by
    rw [postLoop_cons, if_neg c0, he1]
    dsimp only
    rw [postLoop_cons, if_neg c1, he2]
    dsimp only
    rw [postLoop_cons, if_pos c2]
  have hrev : (([(ua, ga), (ub, gb), (uc, gc)] : List (String × String)).reverse)
      = [(uc, gc), (ub, gb), (ua, ga)] := by simp
  have hrun : run_once w store0 = .ok s2 := by
    unfold run_once
    rw [if_neg (by simp [hbt, hch])]
    rw [hcol]
    dsimp only
    rw [if_neg (by simp)]
    simp only [List.filter_cons, List.filter_nil, hpa, hpb, hpc,
      Bool.not_false, if_pos]
    rw [if_neg (by simp)]
    rw [hrev, hL]
  rw [hrun]
  simp [sentUrls, RunResult.state, hsent2, hsent1, initState, hu1, hu2]


/-- Witness for C6: on `wC6` the run publishes C then B, not A then B. -/
theorem C6_oldest_first_witness :
    sentUrls (run_once wC6 []) =
      ["https://worldoftanks.eu/ru/news/cat/cc/",
       "https://worldoftanks.eu/ru/news/cat/b/"] :=
  C6_oldest_first wC6 []
    "https://worldoftanks.eu/ru/news/cat/a/"
    "https://worldoftanks.eu/ru/news/cat/b/"
    "https://worldoftanks.eu/ru/news/cat/cc/"
    "A" "B" "C" dC6 dC6 dC6 864000 864000 864000
    (by decide) (by decide) (by rfl)
    (by decide) (by decide) (by decide)
    (by rfl) (by rfl) (by rfl)
    (by decide) (by decide) (by decide)
    (by decide) (by decide) (by decide)
    (by decide) (by decide)


lemma dedupByUrl_nodup_aux :
    ∀ (l : List (String × String)) (seen : List String),
      ((dedupByUrl seen l).map Prod.fst).Nodup ∧
      ∀ x ∈ (dedupByUrl seen l).map Prod.fst, x ∉ seen := by
  intro l
  induction l with
  | nil => intro seen; exact ⟨List.nodup_nil, by simp [dedupByUrl]⟩
  | cons c rest ih =>
    intro seen
    obtain ⟨u, t⟩ := c
    by_cases hu : u ∈ seen
    · simpa [dedupByUrl, hu] using ih seen
    · obtain ⟨h1, h2⟩ := ih (u :: seen)
      constructor
      · simp only [dedupByUrl, hu, if_neg, ite_false, List.map_cons]
        refine List.nodup_cons.2 ⟨fun hmem => ?_, h1⟩
        exact (h2 u hmem) (List.mem_cons_self _ _)
      · intro x hx
        simp only [dedupByUrl, hu, if_neg, ite_false, List.map_cons,
          List.mem_cons] at hx
        rcases hx with rfl | hx'
        · exact hu
        · exact fun hxs => (h2 x hx') (List.mem_cons_of_mem _ hxs)


/-- C3 (amended): the output of one listing page is de-duplicated — each
normalized URL occurs at most once per page. -/
theorem C3_dedup_within_page (w : World) (page_url : String)
    (items : List (String × String))
    (h : parse_news_index_page w page_url = some items) :
    (items.map Prod.fst).Nodup := by
  unfold parse_news_index_page at h
  cases hf : w.fetchPage page_url with
  | none => rw [hf] at h; exact absurd h (by simp)
  | some anchors =>
    rw [hf] at h
    simp only [Option.some.injEq] at h
    rw [← h]
    exact (dedupByUrl_nodup_aux _ []).1


/-- Witness for the amended C3 at a concrete page. -/
theorem C3_dedup_within_page_witness :
    (([("https://worldoftanks.eu/ru/news/cat/a/", "A")] :
        List (String × String)).map Prod.fst).Nodup :=
  C3_dedup_within_page wC3 NEWS_INDEX_URL
    [("https://worldoftanks.eu/ru/news/cat/a/", "A")] (by rfl)


/-- Counterexample to C3 as stated: pages 1 and 2 both list the same
article; the whole collection pass returns its URL twice, so the output is
not de-duplicated across pages. -/
theorem C3_counterexample_cross_page_duplicate :
    collect_new_links_all wC3 = .ok
      [("https://worldoftanks.eu/ru/news/cat/a/", "A"),
       ("https://worldoftanks.eu/ru/news/cat/a/", "A2")] ∧
    ¬ (List.map Prod.fst
        [("https://worldoftanks.eu/ru/news/cat/a/", "A"),
         ("https://worldoftanks.eu/ru/news/cat/a/", "A2")]).Nodup :=
  ⟨by rfl, by decide⟩


/-- C4 (amended): when any listing-page fetch fails during collection, the
uncaught exception aborts the entire run before any candidate is
processed: nothing is fetched, formatted, published or recorded. -/
theorem C4_page_failure_aborts_run (w : World) (store0 : Store)
    (hbt : truthyOptStr w.botToken = true) (hch : truthyOptStr w.channel = true)
    (e : Unit) (hcol : collect_new_links_all w = .error e) :
    run_once w store0 = .aborted .pageFetchError (initState store0) := by
  unfold run_once
  rw [if_neg (by simp [hbt, hch]), hcol]


/-- Witness for the amended C4 on the concrete world `wC4`. -/
theorem C4_page_failure_aborts_run_witness :
    run_once wC4 [] = .aborted .pageFetchError (initState []) :=
  C4_page_failure_aborts_run wC4 [] (by decide) (by decide) () (by rfl)


/-- Counterexample to C4 as stated: page 1 of `wC4` contributed a fresh
in-window candidate, page 2 failed — yet the run aborts with the page
error, publishes nothing and records nothing, instead of continuing with
the partial candidate set. -/
theorem C4_counterexample_page_failure :
    parse_news_index_page wC4 NEWS_INDEX_URL =
      some [("https://worldoftanks.eu/ru/news/cat/a/", "A")] ∧
    parse_news_index_page wC4 (indexPageUrl 2) = none ∧
    run_once wC4 [] = .aborted .pageFetchError (initState []) ∧
    sentUrls (run_once wC4 []) = [] ∧
    (run_once wC4 []).state.store = [] :=
  ⟨by rfl, by rfl, by rfl, by rfl, by rfl⟩
